import Mathlib

/-!
Verification of the link extraction and filtering pipeline of
`src/web_scraper.py` (class `WebScraper`).

Python strings are modelled as lists of Unicode code points (`PyStr`),
so `len` is `List.length`, `str.lower()` is a code-point map (modelled
on the ASCII range, which is all the filter's fixed patterns use),
`startswith` / `endswith` are `isPrefixOf` / `isSuffixOf` and `in` is
substring containment.  `urllib.parse.urlsplit` / `urlparse` / `urljoin`
are translated from CPython's `Lib/urllib/parse.py`; the `ValueError`
they raise on a netloc with mismatched square brackets is modelled as
`Option.none`.  HTML documents are modelled as already-parsed trees
(`HNode` / `HForest`); CSS selectors are modelled as the simple
tag / attribute selectors the configuration uses (`Sel`), matched
against a single element.  HTTP fetching and Airtable are abstract
environments; Python exceptions that the code does not catch are
modelled with `Except`.
-/

/-- A Python string: its list of Unicode code points. -/
abbrev PyStr : Type := List Nat

/-- Code points of a Lean string literal, used to write concrete Python strings. -/
def strCodes (s : String) : PyStr := s.data.map Char.toNat

/-- ASCII lowering of one code point: the fragment of Python's `str.lower()`
exercised by the scraper's fixed ASCII patterns. -/
def lowerCode (c : Nat) : Nat := if 65 ≤ c ∧ c ≤ 90 then c + 32 else c

/-- Model of `s.lower()`. -/
def pyLower (s : PyStr) : PyStr := s.map lowerCode

/-- Model of Python's `pat in s` substring test. -/
def isSubstr (pat : PyStr) (s : List Nat) : Bool :=
  List.isPrefixOf pat s ||
    (match s with
     | [] => false
     | _ :: t => isSubstr pat t)

/-- Model of `str.strip()` on the ASCII whitespace range. -/
def isPySpace (c : Nat) : Bool := c == 32 || (9 ≤ c && c ≤ 13)

def pyStrip (s : PyStr) : PyStr :=
  (((s.dropWhile isPySpace).reverse).dropWhile isPySpace).reverse

/-- Model of the Python slice `l[:m]` for an `int` bound `m`. -/
def pySliceTo {α : Type} (m : Int) (l : List α) : List α :=
  if 0 ≤ m then l.take m.toNat else l.take ((l.length : Int) + m).toNat

/-- First index of a code point satisfying `p` (Python `str.find` when some). -/
def findIdxAux (p : Nat → Bool) : List Nat → Option Nat
  | [] => none
  | c :: t => if p c then some 0 else (findIdxAux p t).map (· + 1)

/-! ## `urllib.parse.urlsplit` / `urlparse`, from CPython `Lib/urllib/parse.py` -/

/-- Leading "C0 control or space" characters, removed by `urlsplit`. -/
def isC0OrSpace (c : Nat) : Bool := decide (c ≤ 32)

/-- Tab, LF, CR: `_UNSAFE_URL_BYTES_TO_REMOVE`, removed by `urlsplit`. -/
def isUnsafeByte (c : Nat) : Bool := c == 9 || c == 10 || c == 13

def sanitizeUrl (u : PyStr) : PyStr :=
  (u.dropWhile isC0OrSpace).filter (fun c => !(isUnsafeByte c))

def isAsciiAlphaCode (c : Nat) : Bool := (65 ≤ c && c ≤ 90) || (97 ≤ c && c ≤ 122)

/-- Characters of `scheme_chars`: letters, digits and `+-.`. -/
def isSchemeCharCode (c : Nat) : Bool :=
  isAsciiAlphaCode c || (48 ≤ c && c ≤ 57) || c == 43 || c == 45 || c == 46

/-- Scheme recognition of `urlsplit`: a leading `letter(scheme_chars)*:`
is split off and lowercased, otherwise the default scheme is used. -/
def splitScheme (ds u : PyStr) : PyStr × PyStr :=
  match findIdxAux (fun c => c == 58) u with
  | some i =>
    if 0 < i && isAsciiAlphaCode (u.headD 0) && (u.take i).all isSchemeCharCode then
      (pyLower (u.take i), u.drop (i + 1))
    else (ds, u)
  | none => (ds, u)

def isNetlocEnd (c : Nat) : Bool := c == 47 || c == 63 || c == 35

/-- `_splitnetloc` plus the "Invalid IPv6 URL" check: after a leading `//`,
the netloc runs to the next `/?#`; a netloc containing `[` without `]`
(or vice versa) raises `ValueError`, modelled as `none`. -/
def splitNetloc (u : PyStr) : Option (PyStr × PyStr) :=
  if List.isPrefixOf [47, 47] u then
    let nl := (u.drop 2).takeWhile (fun c => !(isNetlocEnd c))
    let rest := (u.drop 2).dropWhile (fun c => !(isNetlocEnd c))
    if (91 ∈ nl ∧ ¬ 93 ∈ nl) ∨ (93 ∈ nl ∧ ¬ 91 ∈ nl) then none
    else some (nl, rest)
  else some ([], u)

/-- `url.split(c, 1)`: the part before the first occurrence of `c` and the
part after it (`(u, '')` when `c` does not occur). -/
def splitOnFirst (c : Nat) (u : PyStr) : PyStr × PyStr :=
  if c ∈ u then
    (u.takeWhile (fun d => !(d == c)), (u.dropWhile (fun d => !(d == c))).tail)
  else (u, [])

structure SplitR where
  scheme : PyStr
  netloc : PyStr
  path : PyStr
  query : PyStr
  fragment : PyStr
deriving DecidableEq

/-- `urlsplit(url, scheme=ds)`.  `none` models the `ValueError` raised on a
netloc with mismatched square brackets. -/
def pyUrlsplitD (u0 ds : PyStr) : Option SplitR :=
  let u1 := sanitizeUrl u0
  let s := splitScheme ds u1
  match splitNetloc s.2 with
  | none => none
  | some nlr =>
    let f := splitOnFirst 35 nlr.2
    let pq := splitOnFirst 63 f.1
    some ⟨s.1, nlr.1, pq.1, pq.2, f.2⟩

structure ParseR where
  scheme : PyStr
  netloc : PyStr
  path : PyStr
  params : PyStr
  query : PyStr
  fragment : PyStr
deriving DecidableEq

/-- `uses_params` from `urllib.parse`. -/
def usesParams : List PyStr :=
  [strCodes "", strCodes "ftp", strCodes "hdl", strCodes "prospero", strCodes "http",
   strCodes "imap", strCodes "https", strCodes "shttp", strCodes "rtsp", strCodes "rtspu",
   strCodes "sip", strCodes "sips", strCodes "mms", strCodes "sftp", strCodes "tel"]

/-- Index of the last occurrence of `c` (Python `str.rfind` when some). -/
def rfindIdx (c : Nat) (l : PyStr) : Option Nat :=
  (findIdxAux (fun d => d == c) l.reverse).map (fun j => l.length - 1 - j)

/-- First index of `c` at or after position `s` (Python `str.find(c, s)`). -/
def findIdxFrom (c : Nat) (s : Nat) (l : PyStr) : Option Nat :=
  (findIdxAux (fun d => d == c) (l.drop s)).map (· + s)

/-- `_splitparams`: split `;params` out of the last path segment. -/
def splitparams (u : PyStr) : PyStr × PyStr :=
  if 47 ∈ u then
    match rfindIdx 47 u with
    | some s =>
      match findIdxFrom 59 s u with
      | none => (u, [])
      | some i => (u.take i, u.drop (i + 1))
    | none => (u, [])
  else
    match findIdxAux (fun d => d == 59) u with
    | none => (u, [])
    | some i => (u.take i, u.drop (i + 1))

/-- `urlparse(url, scheme=ds)`. -/
def pyUrlparseD (u ds : PyStr) : Option ParseR :=
  (pyUrlsplitD u ds).map (fun s =>
    if s.scheme ∈ usesParams ∧ 59 ∈ s.path then
      let pp := splitparams s.path
      ⟨s.scheme, s.netloc, pp.1, pp.2, s.query, s.fragment⟩
    else ⟨s.scheme, s.netloc, s.path, [], s.query, s.fragment⟩)

/-- `urlparse(url)` as called by `is_valid_link`. -/
def pyUrlparse (u : PyStr) : Option ParseR := pyUrlparseD u []

/-! ## `urlunsplit` / `urlunparse` / `urljoin` -/

/-- `urlunsplit`. -/
def pyUrlunsplit (scheme netloc path query fragment : PyStr) : PyStr :=
  let url1 :=
    if netloc ≠ [] ∨ (path ≠ [] ∧ List.isPrefixOf [47, 47] path) then
      let url2 := if path ≠ [] ∧ path.headD 0 ≠ 47 then 47 :: path else path
      [47, 47] ++ netloc ++ url2
    else path
  let url3 := if scheme ≠ [] then scheme ++ [58] ++ url1 else url1
  let url4 := if query ≠ [] then url3 ++ [63] ++ query else url3
  if fragment ≠ [] then url4 ++ [35] ++ fragment else url4

/-- `urlunparse`. -/
def pyUrlunparse (p : ParseR) : PyStr :=
  let u := if p.params ≠ [] then p.path ++ [59] ++ p.params else p.path
  pyUrlunsplit p.scheme p.netloc u p.query p.fragment

/-- `uses_relative` from `urllib.parse`. -/
def usesRelative : List PyStr :=
  [strCodes "", strCodes "ftp", strCodes "http", strCodes "gopher", strCodes "nntp",
   strCodes "imap", strCodes "wais", strCodes "file", strCodes "https", strCodes "shttp",
   strCodes "mms", strCodes "prospero", strCodes "rtsp", strCodes "rtspu", strCodes "sftp",
   strCodes "svn", strCodes "svn+ssh", strCodes "ws", strCodes "wss"]

/-- `uses_netloc` from `urllib.parse`. -/
def usesNetloc : List PyStr :=
  [strCodes "", strCodes "ftp", strCodes "http", strCodes "gopher", strCodes "nntp",
   strCodes "telnet", strCodes "imap", strCodes "wais", strCodes "file", strCodes "mms",
   strCodes "https", strCodes "shttp", strCodes "snews", strCodes "prospero", strCodes "rtsp",
   strCodes "rtspu", strCodes "rsync", strCodes "svn", strCodes "svn+ssh", strCodes "sftp",
   strCodes "nfs", strCodes "git", strCodes "git+ssh", strCodes "ws", strCodes "wss"]

/-- Python `str.split(sep)` for a one-character separator. -/
def splitAll (c : Nat) : PyStr → List PyStr
  | [] => [[]]
  | d :: t =>
    if d == c then [] :: splitAll c t
    else
      match splitAll c t with
      | [] => [[d]]
      | h :: r => (d :: h) :: r

/-- Python `sep.join(parts)` for a one-character separator. -/
def joinWith (c : Nat) : List PyStr → PyStr
  | [] => []
  | [x] => x
  | x :: y :: r => x ++ c :: joinWith c (y :: r)

/-- The slice assignment `segments[1:-1] = filter(None, segments[1:-1])`:
drop empty segments, keeping the first and last. -/
def midKeepLast : List PyStr → List PyStr
  | [] => []
  | [y] => [y]
  | y :: r => if y = [] then midKeepLast r else y :: midKeepLast r

def applyMidFilter (l : List PyStr) : List PyStr :=
  match l with
  | [] => []
  | [x] => [x]
  | x :: rest => x :: midKeepLast rest

/-- The `.`/`..` resolution loop of `urljoin` (a pop on an empty list is
swallowed by the `except IndexError: pass`). -/
def resolveSegs (segs : List PyStr) : List PyStr :=
  segs.foldl
    (fun acc seg =>
      if seg = [46, 46] then acc.dropLast
      else if seg = [46] then acc
      else acc ++ [seg]) []

/-- `urljoin(base, url)`.  `none` models a `ValueError` raised while parsing
either argument (mismatched brackets in a netloc). -/
def pyUrljoin (base url : PyStr) : Option PyStr :=
  if base = [] then some url
  else if url = [] then some base
  else
    match pyUrlparseD base [] with
    | none => none
    | some b =>
      match pyUrlparseD url b.scheme with
      | none => none
      | some p =>
        if p.scheme ≠ b.scheme ∨ ¬ p.scheme ∈ usesRelative then some url
        else if p.scheme ∈ usesNetloc ∧ p.netloc ≠ [] then
          some (pyUrlunparse p)
        else
          let netloc := if p.scheme ∈ usesNetloc then b.netloc else p.netloc
          if p.path = [] ∧ p.params = [] then
            let query := if p.query = [] then b.query else p.query
            some (pyUrlunparse ⟨p.scheme, netloc, b.path, b.params, query, p.fragment⟩)
          else
            let baseParts0 := splitAll 47 b.path
            let baseParts :=
              if baseParts0.getLast? ≠ some [] then baseParts0.dropLast else baseParts0
            let segments :=
              if List.isPrefixOf [47] p.path then splitAll 47 p.path
              else applyMidFilter (baseParts ++ splitAll 47 p.path)
            let resolved0 := resolveSegs segments
            let resolved :=
              if segments.getLast? = some [46] ∨ segments.getLast? = some [46, 46] then
                resolved0 ++ [[]]
              else resolved0
            let joined := joinWith 47 resolved
            let path2 := if joined = [] then [47] else joined
            some (pyUrlunparse ⟨p.scheme, netloc, path2, p.params, p.query, p.fragment⟩)

/-! ## The Link Filter: `WebScraper.is_valid_link` -/

/-- The `linkFilters` section of the configuration. -/
structure LinkFilters where
  requiredPrefix : PyStr
  minLinkLength : Int
  blockedExtensions : List PyStr

/-- The hardcoded `excluded_paths` of `is_valid_link`. -/
def excludedPathsList : List PyStr :=
  [strCodes "/login", strCodes "/signup", strCodes "/help",
   strCodes "/legal", strCodes "/privacy", strCodes "/cookie-policy"]

def linkedinDomain : PyStr := strCodes "linkedin.com"

/-- The body of `is_valid_link` (the inside of its `try`): `none` models an
exception escaping `urlparse`, caught by the surrounding handler. -/
def is_valid_linkCore (lf : LinkFilters) (link : PyStr) : Option Bool :=
  if !(List.isPrefixOf lf.requiredPrefix link) then some false
  else
    match pyUrlparse link with
    | none => none
    | some p =>
      if p.scheme = [] ∨ p.netloc = [] then some false
      else if (link.length : Int) < lf.minLinkLength then some false
      else if !(isSubstr linkedinDomain (pyLower p.netloc)) then some false
      else if lf.blockedExtensions.any
          (fun ext => List.isSuffixOf ext (pyLower p.path)) then some false
      else if excludedPathsList.any (fun e => isSubstr e (pyLower p.path)) then some false
      else some true

/-- `is_valid_link(link, source_url)`: the `except Exception` handler turns
any internal exception into a reject. -/
def is_valid_link (lf : LinkFilters) (link : PyStr) (_source_url : PyStr) : Bool :=
  (is_valid_linkCore lf link).getD false

/-! ## HTML documents and selectors

The page body is modelled as an already-parsed element tree (the result of
`BeautifulSoup(response.content, 'html.parser')`).  The configured CSS
selectors are the simple per-element selectors the configuration uses
(`"a"`, `".cls"`, `"[attr=v]"`): a selector matches an element by its tag
name and attributes alone. -/

mutual
inductive HNode where
| elem (tag : PyStr) (attrs : List (PyStr × PyStr)) (children : HForest)
| text (s : PyStr)
inductive HForest where
| fnil
| fcons (n : HNode) (f : HForest)
end


/-- A simple CSS selector: an optional tag name and an optional
required attribute/value pair. -/
structure Sel where
  tagName : Option PyStr
  attrReq : Option (PyStr × PyStr)

/-- Whether a selector matches an element; it only inspects the element's
tag and attributes, never its children. -/
def selMatches (sel : Sel) (n : HNode) : Bool :=
  match n with
  | .text _ => false
  | .elem t a _ =>
    (match sel.tagName with
     | none => true
     | some tn => t == tn) &&
    (match sel.attrReq with
     | none => true
     | some kv => a.contains kv)

/- `soup.select(selector)`: matching elements in document (pre-)order. -/
mutual
def selNode (sel : Sel) : HNode → List HNode
| .text _ => []
| .elem t a cs =>
  (if selMatches sel (.elem t a cs) then [HNode.elem t a cs] else []) ++ selForest sel cs
def selForest (sel : Sel) : HForest → List HNode
| .fnil => []
| .fcons n f => selNode sel n ++ selForest sel f
end


/- The net effect of `for element in soup.select(selector): element.decompose()`:
every subtree whose root matches the selector is removed. -/
mutual
def pruneNode (sel : Sel) : HNode → Option HNode
| .text s => some (.text s)
| .elem t a cs =>
  if selMatches sel (.elem t a cs) then none
  else some (.elem t a (pruneForest sel cs))
def pruneForest (sel : Sel) : HForest → HForest
| .fnil => .fnil
| .fcons n f =>
  match pruneNode sel n with
  | none => pruneForest sel f
  | some n2 => .fcons n2 (pruneForest sel f)
end


/-- The exclusion loop over `excludeSelectors`, in configuration order. -/
def pruneAllF (ex : List Sel) (f : HForest) : HForest :=
  ex.foldl (fun acc sel => pruneForest sel acc) f

/-- `element.get('href')`. -/
def hrefOf (n : HNode) : Option PyStr :=
  match n with
  | .text _ => none
  | .elem _ a _ => (a.find? (fun kv => kv.1 == strCodes "href")).map (fun kv => kv.2)

/-- The elements produced by the inclusion loop over `linkSelectors`,
selector by selector, each in document order. -/
def allSelected (incls : List Sel) (f : HForest) : List HNode :=
  incls.flatMap (fun sel => selForest sel f)

/- Reference extraction for the exclusion/inclusion invariant: collect
matches of `sel` top-down but never enter a subtree whose root matches one
of the exclusion selectors `ex`. -/
mutual
def safeSelNode (ex : List Sel) (sel : Sel) : HNode → List HNode
| .text _ => []
| .elem t a cs =>
  if ex.any (fun e => selMatches e (.elem t a cs)) then []
  else
    (if selMatches sel (.elem t a cs) then [HNode.elem t a cs] else []) ++
      safeSelForest ex sel cs
def safeSelForest (ex : List Sel) (sel : Sel) : HForest → List HNode
| .fnil => []
| .fcons n f => safeSelNode ex sel n ++ safeSelForest ex sel f
end


/-- The non-empty `href` attributes of a list of elements (the candidates
the extraction loop hands to `urljoin`). -/
def candHrefs (els : List HNode) : List PyStr :=
  (els.filterMap hrefOf).filter (fun h => !(h == []))

/-! ## The Page Scraper and the Batch Orchestrator

`requests` and Airtable are abstracted into an environment: `fetchPage`
gives the outcome of the HTTP GET (`err` covers both a network failure and
a non-2xx status, i.e. everything `raise_for_status` turns into a
`requests.RequestException`), already parsed into an element tree on
success.  CPython iterates a `set` of strings in an order that depends on
the per-process hash seed; `setOrder` is that unspecified enumeration
(`list(links)`), a permutation of the set's elements.  Uncaught Python
exceptions are modelled by `Except.error`. -/

/-- The configuration fields the pipeline reads. -/
structure Config where
  linkFilters : LinkFilters
  excludeSelectors : List Sel
  linkSelectors : List Sel
  maxLinksPerPage : Int
  maxRecordsToProcess : Int
  updateAirtable : Bool

inductive FetchOutcome where
| ok (doc : HForest)
| err

structure Env where
  fetchPage : PyStr → FetchOutcome
  setOrder : List PyStr → List PyStr

/-- One Airtable record: its `id` and the value of
`fields.get(config['airtable']['linkColumnName'])`. -/
structure AirRecord where
  id : PyStr
  sourceField : Option PyStr

structure ScrapeResult where
  row_number : Nat
  record_id : PyStr
  source_url : PyStr
  linkedin_links : List PyStr
  linkedin_links_count : Nat
deriving DecidableEq

/-- The summary contents the run accumulates: `all_results` plus the
record-store writes issued through `update_airtable_record`. -/
structure RunState where
  results : List ScrapeResult
  updates : List (PyStr × List PyStr)
deriving DecidableEq

/-- `set()` insertion: contents of the growing `links` set, keeping the
first occurrence of each element. -/
def dedupKeepFirst : List PyStr → List PyStr :=
  go []
where
  go (seen : List PyStr) : List PyStr → List PyStr
    | [] => []
    | x :: t => if x ∈ seen then go seen t else x :: go (x :: seen) t

/-- The inner extraction loop: for each selected element take its `href`;
if non-empty, resolve it with `urljoin` and keep it when `is_valid_link`
accepts it.  A `ValueError` out of `urljoin` is not caught by the
`except requests.RequestException` handler, so it escapes (`Except.error`). -/
def collectFromEls (lf : LinkFilters) (pageUrl : PyStr) :
    List HNode → List PyStr → Except Unit (List PyStr)
  | [], acc => .ok acc
  | el :: rest, acc =>
    match hrefOf el with
    | none => collectFromEls lf pageUrl rest acc
    | some h =>
      if h = [] then collectFromEls lf pageUrl rest acc
      else
        match pyUrljoin pageUrl h with
        | none => .error ()
        | some absUrl =>
          if is_valid_link lf absUrl pageUrl then
            collectFromEls lf pageUrl rest (acc ++ [absUrl])
          else collectFromEls lf pageUrl rest acc

/-- `WebScraper.scrape_page_links`: fetch, prune excluded subtrees, collect
and validate hrefs, deduplicate via the `links` set, and apply the
`maxLinksPerPage` cap by slicing `list(links)`. -/
def scrape_page_links (cfg : Config) (env : Env) (url : PyStr) :
    Except Unit (List PyStr) :=
  match env.fetchPage url with
  | .err => .ok []
  | .ok doc =>
    let pruned := pruneAllF cfg.excludeSelectors doc
    match collectFromEls cfg.linkFilters url (allSelected cfg.linkSelectors pruned) [] with
    | .error e => .error e
    | .ok raw =>
      let links := dedupKeepFirst raw
      .ok (if 0 < cfg.maxLinksPerPage then
             (env.setOrder links).take cfg.maxLinksPerPage.toNat
           else links)

/-- The canonical prefix of the site-specific post-filter in `run`. -/
def linkedinCanon : PyStr := strCodes "https://www.linkedin.com"

/-- URL normalization in `run`: strip whitespace, then prepend `https://`
when no `http://`/`https://` scheme is present. -/
def pyNormalize (raw : PyStr) : PyStr :=
  let u := pyStrip raw
  if List.isPrefixOf (strCodes "http://") u || List.isPrefixOf (strCodes "https://") u then u
  else strCodes "https://" ++ u

/-- The body of the per-record loop of `run` for one record, acting on the
accumulated state.  A skipped record (missing/empty source field) leaves
the state unchanged; otherwise the page is scraped, the site-specific
post-filter keeps the canonical-prefix links, a `ScrapeResult` is appended
and, when `updateAirtable` is configured, an Airtable write is issued. -/
def processRecord (cfg : Config) (env : Env) (i : Nat) (r : AirRecord)
    (s : RunState) : Except Unit RunState :=
  match r.sourceField with
  | none => .ok s
  | some raw =>
    if raw = [] then .ok s
    else
      let u := pyNormalize raw
      match scrape_page_links cfg env u with
      | .error e => .error e
      | .ok scraped =>
        let linkedin := scraped.filter (fun l => List.isPrefixOf linkedinCanon l)
        let res : ScrapeResult := ⟨i, r.id, u, linkedin, linkedin.length⟩
        let ups := if cfg.updateAirtable then s.updates ++ [(r.id, linkedin)] else s.updates
        .ok ⟨s.results ++ [res], ups⟩

/-- The `for i, record in enumerate(records, 1)` loop of `run`. -/
def runGo (cfg : Config) (env : Env) : Nat → List AirRecord → RunState → Except Unit RunState
  | _, [], s => .ok s
  | i, r :: rest, s =>
    match processRecord cfg env i r s with
    | .error e => .error e
    | .ok s2 => runGo cfg env (i + 1) rest s2

/-- `WebScraper.run`: fetch records (an empty fetch halts the run), slice to
`maxRecordsToProcess`, then process each record in order with a 1-based row
counter. -/
def run (cfg : Config) (env : Env) (records : List AirRecord) : Except Unit RunState :=
  match records with
  | [] => .ok ⟨[], []⟩
  | _ :: _ => runGo cfg env 1 (pySliceTo cfg.maxRecordsToProcess records) ⟨[], []⟩

/-- Componentwise ASCII lowering of an `urlsplit` result (the scheme is
already lowered by `urlsplit` itself). -/
def lowerSplitR (r : SplitR) : SplitR :=
  ⟨r.scheme, pyLower r.netloc, pyLower r.path, pyLower r.query, pyLower r.fragment⟩

/-- Componentwise ASCII lowering of an `urlparse` result. -/
def lowerParseR (r : ParseR) : ParseR :=
  ⟨r.scheme, pyLower r.netloc, pyLower r.path, pyLower r.params,
   pyLower r.query, pyLower r.fragment⟩

/-! ## Concrete instances used by witnesses and counterexamples -/

/-- An `<a href=...>` element with no children. -/
def aElem (href : String) : HNode :=
  .elem (strCodes "a") [(strCodes "href", strCodes href)] .fnil

def forestOf : List HNode → HForest
  | [] => .fnil
  | n :: t => .fcons n (forestOf t)

/-- The CSS selector `"a"`. -/
def selAnchor : Sel := ⟨some (strCodes "a"), none⟩

/-- A demo `linkFilters` configuration. -/
def lfDemo : LinkFilters := ⟨strCodes "https://www.linkedin.com", 10, []⟩

/-- A page with five valid LinkedIn profile links, in document order. -/
def doc5 : HForest :=
  forestOf [aElem "https://www.linkedin.com/in/a1", aElem "https://www.linkedin.com/in/a2",
    aElem "https://www.linkedin.com/in/a3", aElem "https://www.linkedin.com/in/a4",
    aElem "https://www.linkedin.com/in/a5"]

/-- Demo configuration with `maxLinksPerPage = 3`. -/
def cfgDemo : Config := ⟨lfDemo, [], [selAnchor], 3, 10, true⟩

/-- Environment whose set enumeration happens to be insertion order. -/
def envIdOrder : Env := ⟨fun _ => .ok doc5, fun l => l⟩

/-- Environment (same pages) whose set enumeration is reversed — another
legitimate hash-seed-dependent `list(set)` order. -/
def envRevOrder : Env := ⟨fun _ => .ok doc5, fun l => l.reverse⟩

/-- A page whose single anchor has the malformed href `//[x`. -/
def docBadHref : HForest := forestOf [aElem "//[x"]

def envBadHref : Env := ⟨fun _ => .ok docBadHref, fun l => l⟩

/-- A record whose source-URL field is `example.com/a` (no scheme). -/
def recDemo : AirRecord := ⟨strCodes "rec1", some (strCodes "example.com/a")⟩

/-- Environment in which every page fetch fails (network error / non-2xx). -/
def envFetchFail : Env := ⟨fun _ => .err, fun l => l⟩

def lfC5 : LinkFilters := ⟨strCodes "https://www.linkedin.com", 20, []⟩

def uC5 : PyStr := strCodes "https://www.linkedin.com/in/alice-smith"

def vC5 : PyStr := strCodes "https://www.LINKEDIN.com/in/alice-smith"

def linkC4a : PyStr := strCodes "https://www.linkedin.com/in/a1"

def linkC4b : PyStr := strCodes "https://www.linkedin.com/in/a2"

def linkC4c : PyStr := strCodes "https://www.linkedin.com/in/a3"

def linkC4d : PyStr := strCodes "https://www.linkedin.com/in/a4"

def linkC4e : PyStr := strCodes "https://www.linkedin.com/in/a5"

/-- A filter configuration with an empty required prefix (every URL reaches
the parsing step). -/
def lfNoPre : LinkFilters := ⟨[], 0, []⟩

/-- The invariant behind claim C8: every result's accepted list is the
canonical-prefix filter of what the Page Scraper returns for its stored
source URL, and every issued record-store write carries the accepted list
of one of the results. -/
def stateOk (cfg : Config) (env : Env) (s : RunState) : Prop :=
  (∀ res ∈ s.results,
    (∀ l ∈ res.linkedin_links, List.isPrefixOf linkedinCanon l = true) ∧
    ∃ S, scrape_page_links cfg env res.source_url = .ok S ∧
      ∀ l ∈ res.linkedin_links, l ∈ S) ∧
  (∀ pr ∈ s.updates, ∃ res ∈ s.results, (pr : PyStr × List PyStr).2 = res.linkedin_links)

/-! ## Case lowering commutes with URL parsing

These lemmas show that `pyUrlsplitD`/`pyUrlparse` only branch on characters
that ASCII lowering leaves fixed, so parsing an ASCII-lowered URL yields the
componentwise-lowered parse (with the scheme unchanged: `urlsplit` lowers it
itself).  They back the analysis of claim C5. -/

theorem lowerCode_lowerCode (c : Nat) : lowerCode (lowerCode c) = lowerCode c := by
  unfold lowerCode
  split_ifs <;> omega

theorem pyLower_pyLower (l : PyStr) : pyLower (pyLower l) = pyLower l := by
  unfold pyLower
  rw [List.map_map]
  exact List.map_congr_left (fun c _ => lowerCode_lowerCode c)

theorem pyLower_length (l : PyStr) : (pyLower l).length = l.length := List.length_map l _

theorem pyLower_nil_iff (l : PyStr) : pyLower l = [] ↔ l = [] := List.map_eq_nil_iff

theorem lowerCode_eq_iff (k c : Nat) (h1 : ¬(65 ≤ k ∧ k ≤ 90)) (h2 : ¬(97 ≤ k ∧ k ≤ 122)) :
    lowerCode c = k ↔ c = k := by
  unfold lowerCode
  split_ifs with h
  · constructor <;> intro e <;> omega
  · exact Iff.rfl

theorem beq_lowerCode (k c : Nat) (h1 : ¬(65 ≤ k ∧ k ≤ 90)) (h2 : ¬(97 ≤ k ∧ k ≤ 122)) :
    (lowerCode c == k) = (c == k) := by
  by_cases hc : c = k
  · subst hc
    simp [(lowerCode_eq_iff c c h1 h2).mpr rfl]
  · have h3 : ¬ lowerCode c = k := fun e => hc ((lowerCode_eq_iff k c h1 h2).mp e)
    simp [hc, h3]

theorem beq_lowerCode_left (k c : Nat) (h1 : ¬(65 ≤ k ∧ k ≤ 90)) (h2 : ¬(97 ≤ k ∧ k ≤ 122)) :
    (k == lowerCode c) = (k == c) := by
  rw [BEq.comm (a := k) (b := lowerCode c), BEq.comm (a := k) (b := c)]
  exact beq_lowerCode k c h1 h2

theorem mem_pyLower (k : Nat) (h1 : ¬(65 ≤ k ∧ k ≤ 90)) (h2 : ¬(97 ≤ k ∧ k ≤ 122))
    (l : PyStr) : k ∈ pyLower l ↔ k ∈ l := by
  unfold pyLower
  rw [List.mem_map]
  constructor
  · rintro ⟨a, ha, e⟩
    rwa [(lowerCode_eq_iff k a h1 h2).mp e] at ha
  · intro hk
    exact ⟨k, hk, (lowerCode_eq_iff k k h1 h2).mpr rfl⟩

theorem isC0OrSpace_lowerCode (c : Nat) : isC0OrSpace (lowerCode c) = isC0OrSpace c := by
  unfold isC0OrSpace lowerCode
  split_ifs with h
  · have e1 : ¬ c + 32 ≤ 32 := by omega
    have e2 : ¬ c ≤ 32 := by omega
    simp [e1, e2]
  · rfl

theorem isUnsafeByte_lowerCode (c : Nat) : isUnsafeByte (lowerCode c) = isUnsafeByte c := by
  unfold isUnsafeByte
  rw [beq_lowerCode 9 c (by omega) (by omega), beq_lowerCode 10 c (by omega) (by omega),
    beq_lowerCode 13 c (by omega) (by omega)]

theorem isAsciiAlphaCode_lowerCode (c : Nat) :
    isAsciiAlphaCode (lowerCode c) = isAsciiAlphaCode c := by
  unfold isAsciiAlphaCode lowerCode
  split_ifs with h
  · have e1 : (65 ≤ c + 32 && c + 32 ≤ 90) = false := by
      simp only [Bool.and_eq_false_iff, decide_eq_false_iff_not]
      omega
    have e2 : (97 ≤ c + 32 && c + 32 ≤ 122) = true := by
      simp only [Bool.and_eq_true, decide_eq_true_eq]
      omega
    have e3 : (65 ≤ c && c ≤ 90) = true := by
      simp only [Bool.and_eq_true, decide_eq_true_eq]
      omega
    simp [e1, e2, e3]
  · rfl

theorem isSchemeCharCode_lowerCode (c : Nat) :
    isSchemeCharCode (lowerCode c) = isSchemeCharCode c := by
  unfold isSchemeCharCode
  rw [isAsciiAlphaCode_lowerCode, beq_lowerCode 43 c (by omega) (by omega),
    beq_lowerCode 45 c (by omega) (by omega), beq_lowerCode 46 c (by omega) (by omega)]
  have hd : (48 ≤ lowerCode c && lowerCode c ≤ 57) = (48 ≤ c && c ≤ 57) := by
    unfold lowerCode
    split_ifs with h
    · have e1 : (48 ≤ c + 32 && c + 32 ≤ 57) = false := by
        simp only [Bool.and_eq_false_iff, decide_eq_false_iff_not]
        omega
      have e2 : (48 ≤ c && c ≤ 57) = false := by
        simp only [Bool.and_eq_false_iff, decide_eq_false_iff_not]
        omega
      rw [e1, e2]
    · rfl
  rw [hd]

theorem isNetlocEnd_lowerCode (c : Nat) : isNetlocEnd (lowerCode c) = isNetlocEnd c := by
  unfold isNetlocEnd
  rw [beq_lowerCode 47 c (by omega) (by omega), beq_lowerCode 63 c (by omega) (by omega),
    beq_lowerCode 35 c (by omega) (by omega)]

theorem findIdxAux_map (p : Nat → Bool) (f : Nat → Nat) :
    ∀ l : List Nat, findIdxAux p (l.map f) = findIdxAux (fun c => p (f c)) l
  | [] => rfl
  | c :: t => by
    simp only [List.map_cons, findIdxAux]
    rw [findIdxAux_map p f t]

theorem findIdxAux_beq_lower (k : Nat) (h1 : ¬(65 ≤ k ∧ k ≤ 90)) (h2 : ¬(97 ≤ k ∧ k ≤ 122))
    (l : PyStr) :
    findIdxAux (fun d => d == k) (pyLower l) = findIdxAux (fun d => d == k) l := by
  unfold pyLower
  rw [findIdxAux_map]
  congr 1
  funext c
  exact beq_lowerCode k c h1 h2

theorem headD_pyLower (l : PyStr) : (pyLower l).headD 0 = lowerCode (l.headD 0) := by
  cases l with
  | nil => rfl
  | cons a t => rfl

theorem tail_pyLower (l : PyStr) : (pyLower l).tail = pyLower l.tail := by
  cases l with
  | nil => rfl
  | cons a t => rfl

theorem take_pyLower (n : Nat) (l : PyStr) : (pyLower l).take n = pyLower (l.take n) :=
  (List.map_take lowerCode l n).symm

theorem drop_pyLower (n : Nat) (l : PyStr) : (pyLower l).drop n = pyLower (l.drop n) :=
  (List.map_drop lowerCode l n).symm

theorem reverse_pyLower (l : PyStr) : (pyLower l).reverse = pyLower l.reverse :=
  (List.map_reverse lowerCode l).symm

theorem sanitizeUrl_lower (u : PyStr) : sanitizeUrl (pyLower u) = pyLower (sanitizeUrl u) := by
  unfold sanitizeUrl pyLower
  rw [List.dropWhile_map, List.filter_map]
  have hp : (isC0OrSpace ∘ lowerCode) = isC0OrSpace := funext isC0OrSpace_lowerCode
  have hq : ((fun c => !(isUnsafeByte c)) ∘ lowerCode) = fun c => !(isUnsafeByte c) := by
    funext c
    simp only [Function.comp_apply, isUnsafeByte_lowerCode]
  rw [hp, hq]

theorem all_isSchemeCharCode_lower (l : PyStr) :
    (pyLower l).all isSchemeCharCode = l.all isSchemeCharCode := by
  unfold pyLower
  rw [List.all_map]
  congr 1
  funext c
  exact isSchemeCharCode_lowerCode c

theorem splitScheme_lower (u : PyStr) :
    splitScheme [] (pyLower u) = ((splitScheme [] u).1, pyLower (splitScheme [] u).2) := by
  unfold splitScheme
  rw [findIdxAux_beq_lower 58 (by omega) (by omega)]
  cases h : findIdxAux (fun d => d == 58) u with
  | none => rfl
  | some i =>
    simp only
    rw [headD_pyLower, isAsciiAlphaCode_lowerCode, take_pyLower, all_isSchemeCharCode_lower]
    by_cases hg : (0 < i && isAsciiAlphaCode (u.headD 0) && (u.take i).all isSchemeCharCode) = true
    · rw [if_pos hg, if_pos hg, pyLower_pyLower, drop_pyLower]
    · rw [if_neg hg, if_neg hg]

theorem isPrefixOf_slashSlash_lower (u : PyStr) :
    List.isPrefixOf [47, 47] (pyLower u) = List.isPrefixOf [47, 47] u := by
  cases u with
  | nil => rfl
  | cons a t =>
    cases t with
    | nil => simp [pyLower, List.isPrefixOf]
    | cons b t2 =>
      simp only [pyLower, List.map_cons, List.isPrefixOf]
      rw [beq_lowerCode_left 47 a (by omega) (by omega),
        beq_lowerCode_left 47 b (by omega) (by omega)]

theorem takeWhile_notNetlocEnd_lower (l : PyStr) :
    (pyLower l).takeWhile (fun c => !(isNetlocEnd c)) =
      pyLower (l.takeWhile (fun c => !(isNetlocEnd c))) := by
  unfold pyLower
  rw [List.takeWhile_map]
  have hf : ((fun c => !(isNetlocEnd c)) ∘ lowerCode) = (fun c => !(isNetlocEnd c)) := by
    funext c
    simp only [Function.comp_apply, isNetlocEnd_lowerCode]
  rw [hf]

theorem dropWhile_notNetlocEnd_lower (l : PyStr) :
    (pyLower l).dropWhile (fun c => !(isNetlocEnd c)) =
      pyLower (l.dropWhile (fun c => !(isNetlocEnd c))) := by
  unfold pyLower
  rw [List.dropWhile_map]
  have hf : ((fun c => !(isNetlocEnd c)) ∘ lowerCode) = (fun c => !(isNetlocEnd c)) := by
    funext c
    simp only [Function.comp_apply, isNetlocEnd_lowerCode]
  rw [hf]

theorem splitNetloc_lower (u : PyStr) :
    splitNetloc (pyLower u) =
      (splitNetloc u).map (fun x => (pyLower x.1, pyLower x.2)) := by
  unfold splitNetloc
  rw [isPrefixOf_slashSlash_lower]
  by_cases hp : List.isPrefixOf [47, 47] u = true
  · rw [if_pos hp, if_pos hp]
    simp only [drop_pyLower, takeWhile_notNetlocEnd_lower, dropWhile_notNetlocEnd_lower,
      mem_pyLower 91 (by omega) (by omega), mem_pyLower 93 (by omega) (by omega)]
    by_cases hC : (91 ∈ (u.drop 2).takeWhile (fun c => !(isNetlocEnd c)) ∧
        ¬ 93 ∈ (u.drop 2).takeWhile (fun c => !(isNetlocEnd c))) ∨
        (93 ∈ (u.drop 2).takeWhile (fun c => !(isNetlocEnd c)) ∧
        ¬ 91 ∈ (u.drop 2).takeWhile (fun c => !(isNetlocEnd c)))
    · rw [if_pos hC, if_pos hC]
      rfl
    · rw [if_neg hC, if_neg hC]
      rfl
  · rw [if_neg hp, if_neg hp]
    rfl

theorem splitOnFirst_lower (k : Nat) (h1 : ¬(65 ≤ k ∧ k ≤ 90)) (h2 : ¬(97 ≤ k ∧ k ≤ 122))
    (u : PyStr) :
    splitOnFirst k (pyLower u) = (pyLower (splitOnFirst k u).1, pyLower (splitOnFirst k u).2) := by
  unfold splitOnFirst
  have hm := mem_pyLower k h1 h2 u
  have ht : (pyLower u).takeWhile (fun d => !(d == k)) =
      pyLower (u.takeWhile (fun d => !(d == k))) := by
    unfold pyLower
    rw [List.takeWhile_map]
    have hf : ((fun d => !(d == k)) ∘ lowerCode) = (fun d => !(d == k)) := by
      funext c
      simp only [Function.comp_apply, beq_lowerCode k c h1 h2]
    rw [hf]
  have hd : (pyLower u).dropWhile (fun d => !(d == k)) =
      pyLower (u.dropWhile (fun d => !(d == k))) := by
    unfold pyLower
    rw [List.dropWhile_map]
    have hf : ((fun d => !(d == k)) ∘ lowerCode) = (fun d => !(d == k)) := by
      funext c
      simp only [Function.comp_apply, beq_lowerCode k c h1 h2]
    rw [hf]
  by_cases hk : k ∈ u
  · rw [if_pos (hm.mpr hk), if_pos hk, ht, hd, tail_pyLower]
  · rw [if_neg (fun e => hk (hm.mp e)), if_neg hk]
    rfl

theorem rfindIdx_lower (k : Nat) (h1 : ¬(65 ≤ k ∧ k ≤ 90)) (h2 : ¬(97 ≤ k ∧ k ≤ 122))
    (l : PyStr) : rfindIdx k (pyLower l) = rfindIdx k l := by
  unfold rfindIdx
  rw [reverse_pyLower, findIdxAux_beq_lower k h1 h2, pyLower_length]

theorem findIdxFrom_lower (k : Nat) (h1 : ¬(65 ≤ k ∧ k ≤ 90)) (h2 : ¬(97 ≤ k ∧ k ≤ 122))
    (s : Nat) (l : PyStr) : findIdxFrom k s (pyLower l) = findIdxFrom k s l := by
  unfold findIdxFrom
  rw [drop_pyLower, findIdxAux_beq_lower k h1 h2]

theorem splitparams_lower (u : PyStr) :
    splitparams (pyLower u) = (pyLower (splitparams u).1, pyLower (splitparams u).2) := by
  unfold splitparams
  have hm := mem_pyLower 47 (by omega) (by omega) u
  by_cases h47 : 47 ∈ u
  · rw [if_pos (hm.mpr h47), if_pos h47, rfindIdx_lower 47 (by omega) (by omega)]
    cases hs : rfindIdx 47 u with
    | none => rfl
    | some s =>
      simp only
      rw [findIdxFrom_lower 59 (by omega) (by omega)]
      cases hi : findIdxFrom 59 s u with
      | none => rfl
      | some i =>
        simp only [take_pyLower, drop_pyLower]
  · rw [if_neg (fun e => h47 (hm.mp e)), if_neg h47,
      findIdxAux_beq_lower 59 (by omega) (by omega)]
    cases hi : findIdxAux (fun d => d == 59) u with
    | none => rfl
    | some i =>
      simp only [take_pyLower, drop_pyLower]

theorem pyUrlsplitD_lower (u : PyStr) :
    pyUrlsplitD (pyLower u) [] = (pyUrlsplitD u []).map lowerSplitR := by
  simp only [pyUrlsplitD]
  rw [sanitizeUrl_lower, splitScheme_lower, splitNetloc_lower]
  cases hn : splitNetloc (splitScheme [] (sanitizeUrl u)).2 with
  | none => rfl
  | some nlr =>
    dsimp only [Option.map_some']
    rw [splitOnFirst_lower 35 (by omega) (by omega)]
    dsimp only
    rw [splitOnFirst_lower 63 (by omega) (by omega)]
    rfl

theorem pyUrlparse_lower (u : PyStr) :
    pyUrlparse (pyLower u) = (pyUrlparse u).map lowerParseR := by
  unfold pyUrlparse pyUrlparseD
  rw [pyUrlsplitD_lower]
  cases hs : pyUrlsplitD u [] with
  | none => rfl
  | some s =>
    dsimp only [Option.map_some', lowerSplitR]
    have hiff : (s.scheme ∈ usesParams ∧ 59 ∈ pyLower s.path) ↔
        (s.scheme ∈ usesParams ∧ 59 ∈ s.path) :=
      Iff.and Iff.rfl (mem_pyLower 59 (by omega) (by omega) s.path)
    by_cases hc : s.scheme ∈ usesParams ∧ 59 ∈ s.path
    · rw [if_pos (hiff.mpr hc), if_pos hc, splitparams_lower]
      rfl
    · rw [if_neg (fun e => hc (hiff.mp e)), if_neg hc]
      rfl

theorem pyLower_length_eq {u v : PyStr} (h : pyLower u = pyLower v) : u.length = v.length := by
  have h2 := congrArg List.length h
  rwa [pyLower_length, pyLower_length] at h2

theorem is_valid_link_lower_congr (lf : LinkFilters) (u v src : PyStr)
    (h : pyLower u = pyLower v)
    (hpre : List.isPrefixOf lf.requiredPrefix u = List.isPrefixOf lf.requiredPrefix v) :
    is_valid_link lf u src = is_valid_link lf v src := by
  unfold is_valid_link is_valid_linkCore
  rw [hpre]
  cases hb : List.isPrefixOf lf.requiredPrefix v with
  | false => rfl
  | true =>
    simp only [Bool.not_true, Bool.false_eq_true, if_false]
    have hu := pyUrlparse_lower u
    have hv := pyUrlparse_lower v
    rw [h, hv] at hu
    have hlen : u.length = v.length := pyLower_length_eq h
    cases pu : pyUrlparse u with
    | none =>
      cases pv : pyUrlparse v with
      | none => rfl
      | some q =>
        rw [pu, pv] at hu
        exact absurd hu (by simp)
    | some p =>
      cases pv : pyUrlparse v with
      | none =>
        rw [pu, pv] at hu
        exact absurd hu (by simp)
      | some q =>
        rw [pu, pv] at hu
        have hl : lowerParseR q = lowerParseR p := Option.some.inj hu
        have hsch : q.scheme = p.scheme := by
          have h3 := congrArg ParseR.scheme hl
          simpa [lowerParseR] using h3
        have hnet : pyLower q.netloc = pyLower p.netloc := by
          have h3 := congrArg ParseR.netloc hl
          simpa [lowerParseR] using h3
        have hpath : pyLower q.path = pyLower p.path := by
          have h3 := congrArg ParseR.path hl
          simpa [lowerParseR] using h3
        have hnil : p.netloc = [] ↔ q.netloc = [] := by
          rw [← pyLower_nil_iff, ← hnet, pyLower_nil_iff]
        simp only
        rw [← hsch, hlen, ← hnet, ← hpath]
        simp only [hnil]

/-! ## Exclusion before inclusion (claim C9 machinery) -/

theorem candHrefs_append (xs ys : List HNode) :
    candHrefs (xs ++ ys) = candHrefs xs ++ candHrefs ys := by
  unfold candHrefs
  rw [List.filterMap_append, List.filter_append]

theorem pruneAllF_nil (f : HForest) : pruneAllF [] f = f := rfl

theorem pruneAllF_cons (e : Sel) (ex : List Sel) (f : HForest) :
    pruneAllF (e :: ex) f = pruneAllF ex (pruneForest e f) := rfl

theorem safeSel_nil (sel : Sel) : ∀ f : HForest, safeSelForest [] sel f = selForest sel f := by
  apply @HForest.rec
    (fun n => safeSelNode [] sel n = selNode sel n)
    (fun f => safeSelForest [] sel f = selForest sel f)
  · intro t a cs ih
    simp only [safeSelNode, selNode, List.any_nil, Bool.false_eq_true, if_false, ih]
  · intro s
    rfl
  · rfl
  · intro n f ih1 ih2
    simp only [safeSelForest, selForest, ih1, ih2]

theorem safeSel_prune_step (e : Sel) (ex : List Sel) (sel : Sel) :
    ∀ f : HForest, candHrefs (safeSelForest ex sel (pruneForest e f)) =
      candHrefs (safeSelForest (e :: ex) sel f) := by
  apply @HForest.rec
    (fun n => candHrefs (match pruneNode e n with
      | none => ([] : List HNode)
      | some n2 => safeSelNode ex sel n2) = candHrefs (safeSelNode (e :: ex) sel n))
    (fun f => candHrefs (safeSelForest ex sel (pruneForest e f)) =
      candHrefs (safeSelForest (e :: ex) sel f))
  · intro t a cs ih
    by_cases hm : selMatches e (.elem t a cs) = true
    · simp [pruneNode, if_pos hm, safeSelNode, hm]
    · simp only [pruneNode, if_neg hm, safeSelNode]
      have hsel : ∀ (x : Sel) (cs2 : HForest),
          selMatches x (HNode.elem t a cs2) = selMatches x (HNode.elem t a cs) := by
        intro x cs2
        rfl
      simp only [hsel, List.any_cons]
      rw [Bool.not_eq_true] at hm
      simp only [hm, Bool.false_or]
      by_cases hex : (ex.any fun e2 => selMatches e2 (HNode.elem t a cs)) = true
      · rw [if_pos hex, if_pos hex]
      · rw [if_neg hex, if_neg hex, candHrefs_append, candHrefs_append, ih]
        congr 1
        by_cases hs : selMatches sel (HNode.elem t a cs) = true
        · rw [if_pos hs, if_pos hs]
          rfl
        · rw [if_neg hs, if_neg hs]
  · intro s
    rfl
  · rfl
  · intro n f ih1 ih2
    show candHrefs (safeSelForest ex sel
        (match pruneNode e n with
         | none => pruneForest e f
         | some n2 => HForest.fcons n2 (pruneForest e f))) =
      candHrefs (safeSelNode (e :: ex) sel n ++ safeSelForest (e :: ex) sel f)
    cases hpn : pruneNode e n with
    | none =>
      rw [hpn] at ih1
      have hz : candHrefs (safeSelNode (e :: ex) sel n) = ([] : List PyStr) := ih1.symm.trans rfl
      rw [candHrefs_append, hz, ih2]
      simp
    | some n2 =>
      rw [hpn] at ih1
      have h2 : candHrefs (safeSelNode ex sel n2) = candHrefs (safeSelNode (e :: ex) sel n) := ih1
      show candHrefs (safeSelNode ex sel n2 ++ safeSelForest ex sel (pruneForest e f)) = _
      rw [candHrefs_append, candHrefs_append, h2, ih2]

theorem sel_pruneAll_eq_safeSel (ex : List Sel) (sel : Sel) (f : HForest) :
    candHrefs (selForest sel (pruneAllF ex f)) = candHrefs (safeSelForest ex sel f) := by
  induction ex generalizing f with
  | nil =>
    rw [pruneAllF_nil, safeSel_nil]
  | cons e ex ih =>
    rw [pruneAllF_cons, ih (pruneForest e f), safeSel_prune_step]

/-! ## Orchestration lemmas -/

theorem scrape_fetchFail (cfg : Config) (env : Env) (url : PyStr)
    (h : env.fetchPage url = .err) : scrape_page_links cfg env url = .ok [] := by
  unfold scrape_page_links
  rw [h]

theorem processRecord_skip (cfg : Config) (env : Env) (i : Nat) (r : AirRecord)
    (s : RunState) (h : r.sourceField = none ∨ r.sourceField = some []) :
    processRecord cfg env i r s = .ok s := by
  unfold processRecord
  cases h with
  | inl h => rw [h]
  | inr h =>
    rw [h]
    rfl

theorem processRecord_scraped (cfg : Config) (env : Env) (i : Nat) (r : AirRecord)
    (s : RunState) (raw : PyStr) (S : List PyStr)
    (h1 : r.sourceField = some raw) (h2 : raw ≠ [])
    (h3 : scrape_page_links cfg env (pyNormalize raw) = .ok S) :
    processRecord cfg env i r s =
      .ok ⟨s.results ++ [⟨i, r.id, pyNormalize raw,
            S.filter (fun l => List.isPrefixOf linkedinCanon l),
            (S.filter (fun l => List.isPrefixOf linkedinCanon l)).length⟩],
          if cfg.updateAirtable then
            s.updates ++ [(r.id, S.filter (fun l => List.isPrefixOf linkedinCanon l))]
          else s.updates⟩ := by
  unfold processRecord
  rw [h1]
  dsimp only
  rw [if_neg h2, h3]

theorem runGo_cons (cfg : Config) (env : Env) (i : Nat) (r : AirRecord)
    (rest : List AirRecord) (s s2 : RunState)
    (h : processRecord cfg env i r s = .ok s2) :
    runGo cfg env i (r :: rest) s = runGo cfg env (i + 1) rest s2 := by
  have hstep : runGo cfg env i (r :: rest) s =
      match processRecord cfg env i r s with
      | .error e => .error e
      | .ok s3 => runGo cfg env (i + 1) rest s3 := rfl
  rw [hstep, h]

theorem processRecord_stateOk (cfg : Config) (env : Env) (i : Nat) (r : AirRecord)
    (s s2 : RunState) (hok : stateOk cfg env s)
    (h : processRecord cfg env i r s = .ok s2) : stateOk cfg env s2 := by
  unfold processRecord at h
  cases hsf : r.sourceField with
  | none =>
    rw [hsf] at h
    cases h
    exact hok
  | some raw =>
    rw [hsf] at h
    dsimp only at h
    by_cases h2 : raw = []
    · rw [if_pos h2] at h
      cases h
      exact hok
    · rw [if_neg h2] at h
      cases hsc : scrape_page_links cfg env (pyNormalize raw) with
      | error e =>
        rw [hsc] at h
        cases h
      | ok S =>
        rw [hsc] at h
        cases h
        constructor
        · intro res hres
          rcases List.mem_append.mp hres with hold | hnew
          · exact hok.1 res hold
          · rcases List.mem_singleton.mp hnew with rfl
            refine ⟨fun l hl => (List.mem_filter.mp hl).2, S, hsc, fun l hl => (List.mem_filter.mp hl).1⟩
        · intro pr hpr
          by_cases hua : cfg.updateAirtable = true
          · rw [if_pos hua] at hpr
            rcases List.mem_append.mp hpr with hold | hnew
            · rcases hok.2 pr hold with ⟨res, hres, hpr2⟩
              exact ⟨res, List.mem_append.mpr (Or.inl hres), hpr2⟩
            · rcases List.mem_singleton.mp hnew with rfl
              refine ⟨_, List.mem_append.mpr (Or.inr (List.mem_singleton.mpr rfl)), rfl⟩
          · rw [if_neg hua] at hpr
            rcases hok.2 pr hpr with ⟨res, hres, hpr2⟩
            exact ⟨res, List.mem_append.mpr (Or.inl hres), hpr2⟩

theorem runGo_stateOk (cfg : Config) (env : Env) :
    ∀ (rs : List AirRecord) (i : Nat) (s st : RunState),
      stateOk cfg env s → runGo cfg env i rs s = .ok st → stateOk cfg env st := by
  intro rs
  induction rs with
  | nil =>
    intro i s st hok h
    cases h
    exact hok
  | cons r rest ih =>
    intro i s st hok h
    unfold runGo at h
    cases hp : processRecord cfg env i r s with
    | error e =>
      rw [hp] at h
      cases h
    | ok s2 =>
      rw [hp] at h
      exact ih (i + 1) s2 st (processRecord_stateOk cfg env i r s s2 hok hp) h

theorem run_stateOk (cfg : Config) (env : Env) (records : List AirRecord)
    (st : RunState) (h : run cfg env records = .ok st) : stateOk cfg env st := by
  unfold run at h
  cases records with
  | nil =>
    cases h
    exact ⟨fun res hres => absurd hres (List.not_mem_nil res),
      fun pr hpr => absurd hpr (List.not_mem_nil pr)⟩
  | cons r rest =>
    exact runGo_stateOk cfg env _ 1 ⟨[], []⟩ st
      ⟨fun res hres => absurd hres (List.not_mem_nil res),
        fun pr hpr => absurd hpr (List.not_mem_nil pr)⟩ h

/-! ## The claims -/

/-- Claim C1: `accept(u, policy)` (the Link Filter `is_valid_link`) returns
`true` exactly when all of the checks hold: (1) `u` starts with the required
prefix (exact, case-sensitive string prefix); (2) `u` parses with a
non-empty scheme and non-empty netloc; (3) `len(u) >= minLinkLength`;
(4) the case-folded host contains `linkedin.com`; (5) the case-folded path
ends with no blocked extension; (6) the (case-folded) path contains none of
the excluded path substrings.  The code evaluates the checks in this order
and the first failing check rejects; as the conjunction below, any single
violated check forces `false`. -/
theorem c1_accept_iff_policy_checks (lf : LinkFilters) (u src : PyStr) :
    is_valid_link lf u src = true ↔
      (List.isPrefixOf lf.requiredPrefix u = true ∧
       ∃ p, pyUrlparse u = some p ∧ p.scheme ≠ [] ∧ p.netloc ≠ [] ∧
         lf.minLinkLength ≤ (u.length : Int) ∧
         isSubstr linkedinDomain (pyLower p.netloc) = true ∧
         (∀ ext ∈ lf.blockedExtensions, List.isSuffixOf ext (pyLower p.path) = false) ∧
         (∀ e ∈ excludedPathsList, isSubstr e (pyLower p.path) = false)) := by
  unfold is_valid_link is_valid_linkCore
  cases hb : List.isPrefixOf lf.requiredPrefix u with
  | false => simp [hb]
  | true =>
    simp only [hb, Bool.not_true, Bool.false_eq_true, if_false, true_and]
    cases pu : pyUrlparse u with
    | none => simp
    | some p =>
      dsimp only
      simp only [Option.some.injEq]
      constructor
      · intro hL
        split_ifs at hL with h1 h2 h3 h4 h5
        · exact absurd hL (by simp)
        · exact absurd hL (by simp)
        · exact absurd hL (by simp)
        · exact absurd hL (by simp)
        · exact absurd hL (by simp)
        · refine ⟨p, rfl, fun e => h1 (Or.inl e), fun e => h1 (Or.inr e), not_lt.mp h2, ?_, ?_, ?_⟩
          · simpa using h3
          · intro ext hx
            have h4f : (lf.blockedExtensions.any
                fun ext => List.isSuffixOf ext (pyLower p.path)) = false :=
              Bool.eq_false_iff.mpr h4
            exact Bool.eq_false_iff.mpr (List.any_eq_false.mp h4f ext hx)
          · intro e he
            have h5f : (excludedPathsList.any fun e => isSubstr e (pyLower p.path)) = false :=
              Bool.eq_false_iff.mpr h5
            exact Bool.eq_false_iff.mpr (List.any_eq_false.mp h5f e he)
      · rintro ⟨q, hq, hs, hn, hlen, hdom, hext, hexc⟩
        cases hq
        have c1 : ¬ (p.scheme = [] ∨ p.netloc = []) := by
          rintro (e | e)
          · exact hs e
          · exact hn e
        have c2 : ¬ ((u.length : Int) < lf.minLinkLength) := not_lt.mpr hlen
        have c3 : ¬ ((!isSubstr linkedinDomain (pyLower p.netloc)) = true) := by simp [hdom]
        have c4 : ¬ ((lf.blockedExtensions.any
            fun ext => List.isSuffixOf ext (pyLower p.path)) = true) := by
          simp only [Bool.not_eq_true]
          exact List.any_eq_false.mpr (fun x hx => by simp [hext x hx])
        have c5 : ¬ ((excludedPathsList.any fun e => isSubstr e (pyLower p.path)) = true) := by
          simp only [Bool.not_eq_true]
          exact List.any_eq_false.mpr (fun x hx => by simp [hexc x hx])
        rw [if_neg c1, if_neg c2, if_neg c3, if_neg c4, if_neg c5]
        rfl

/-- Claim C2: when the HTTP GET for a record's page fails (network failure or
non-2xx status), the Page Scraper returns the empty set without raising; the
orchestrator still appends a `ScrapeResult` with `linkedin_links_count = 0`
for that record and the loop continues with the next record. -/
theorem c2_page_fetch_failure_isolated (cfg : Config) (env : Env) (i : Nat)
    (r : AirRecord) (s : RunState) (rest : List AirRecord) (raw : PyStr)
    (h1 : r.sourceField = some raw) (h2 : raw ≠ [])
    (h3 : env.fetchPage (pyNormalize raw) = .err) :
    scrape_page_links cfg env (pyNormalize raw) = .ok [] ∧
    processRecord cfg env i r s =
      .ok ⟨s.results ++ [⟨i, r.id, pyNormalize raw, [], 0⟩],
        if cfg.updateAirtable then s.updates ++ [(r.id, [])] else s.updates⟩ ∧
    runGo cfg env i (r :: rest) s = runGo cfg env (i + 1) rest
      ⟨s.results ++ [⟨i, r.id, pyNormalize raw, [], 0⟩],
        if cfg.updateAirtable then s.updates ++ [(r.id, [])] else s.updates⟩ := by
  have hsc := scrape_fetchFail cfg env (pyNormalize raw) h3
  have hpr := processRecord_scraped cfg env i r s raw [] h1 h2 hsc
  exact ⟨hsc, hpr, runGo_cons cfg env i r rest s _ hpr⟩

theorem c2_witness :
    scrape_page_links cfgDemo envFetchFail (pyNormalize (strCodes "example.com/a")) = .ok [] ∧
    processRecord cfgDemo envFetchFail 1 recDemo ⟨[], []⟩ =
      .ok ⟨[] ++ [⟨1, recDemo.id, pyNormalize (strCodes "example.com/a"), [], 0⟩],
        if cfgDemo.updateAirtable then [] ++ [(recDemo.id, [])] else []⟩ ∧
    runGo cfgDemo envFetchFail 1 [recDemo] ⟨[], []⟩ = runGo cfgDemo envFetchFail 2 []
      ⟨[] ++ [⟨1, recDemo.id, pyNormalize (strCodes "example.com/a"), [], 0⟩],
        if cfgDemo.updateAirtable then [] ++ [(recDemo.id, [])] else []⟩ :=
  c2_page_fetch_failure_isolated cfgDemo envFetchFail 1 recDemo ⟨[], []⟩ []
    (strCodes "example.com/a") rfl (by decide) rfl

/-- Claim C3 (code bug): `run()` is not exception-free.  On a fetched page
whose anchor has the malformed href `//[x`, `urljoin` raises
`ValueError("Invalid IPv6 URL")`; `scrape_page_links` only catches
`requests.RequestException`, so the exception propagates out of `run` and
aborts the whole batch.  The model evaluates `run` at that input to
`Except.error`. -/
theorem c3_run_raises_on_malformed_href :
    run cfgDemo envBadHref [recDemo] = .error () := rfl

/-- Claim C4 (code bug): the `maxLinksPerPage` truncation is
`set(list(links)[:max_links])`, which takes the first `maxLinks` elements of
CPython's hash-seed-dependent set iteration order.  Two legitimate
enumeration orders of the same accepted five-link set (identity and
reversal, both permutations) yield different three-element results, so the
truncation is neither insertion-order-preserving nor stable across runs. -/
theorem c4_truncation_depends_on_set_order :
    scrape_page_links cfgDemo envIdOrder (strCodes "https://example.com") =
      .ok [linkC4a, linkC4b, linkC4c] ∧
    scrape_page_links cfgDemo envRevOrder (strCodes "https://example.com") =
      .ok [linkC4e, linkC4d, linkC4c] ∧
    [linkC4a, linkC4b, linkC4c] ≠ [linkC4e, linkC4d, linkC4c] ∧
    (∀ l : List PyStr, envIdOrder.setOrder l = l) ∧
    (∀ l : List PyStr, (envRevOrder.setOrder l).Perm l) :=
  ⟨rfl, rfl, by decide, fun _ => rfl, fun l => List.reverse_perm l⟩

/-- Claim C5 counterexample: two URLs that differ only in the ASCII letter
case of their host are not treated alike — the required-prefix check (1) is
a case-sensitive comparison on the raw URL string, so the uppercase-host
variant is rejected while the lowercase one is accepted. -/
theorem c5_host_case_counterexample :
    pyLower uC5 = pyLower vC5 ∧ uC5.length = vC5.length ∧
    is_valid_link lfC5 uC5 [] = true ∧ is_valid_link lfC5 vC5 [] = false :=
  ⟨by decide, by decide, by decide, by decide⟩

/-- Claim C5 (amended): apart from the required-prefix check, the filter is
insensitive to ASCII letter case: if `u` and `v` have the same ASCII
case-folding and agree on the required-prefix check, then
`accept(u) = accept(v)`. -/
theorem c5_case_insensitive_after_prefix (lf : LinkFilters) (u v src : PyStr)
    (h : pyLower u = pyLower v)
    (hpre : List.isPrefixOf lf.requiredPrefix u = List.isPrefixOf lf.requiredPrefix v) :
    is_valid_link lf u src = is_valid_link lf v src :=
  is_valid_link_lower_congr lf u v src h hpre

theorem c5_witness :
    is_valid_link lfC5 (strCodes "https://www.linkedin.com/in/Alice-Smith") [] =
      is_valid_link lfC5 (strCodes "https://www.linkedin.com/in/alice-smith") [] :=
  c5_case_insensitive_after_prefix lfC5
    (strCodes "https://www.linkedin.com/in/Alice-Smith")
    (strCodes "https://www.linkedin.com/in/alice-smith") [] (by decide) (by decide)

/-- Claim C6: `is_valid_link` is total and never raises: an exception inside
its body (modelled by `is_valid_linkCore` returning `none`, as `urlparse`
does on a bracket-mismatched netloc) is caught by the `except Exception`
handler and the link is rejected. -/
theorem c6_internal_exception_rejects (lf : LinkFilters) (link src : PyStr)
    (h : is_valid_linkCore lf link = none) : is_valid_link lf link src = false := by
  unfold is_valid_link
  rw [h]
  rfl

theorem c6_witness :
    is_valid_linkCore lfNoPre (strCodes "//[x") = none ∧
    is_valid_link lfNoPre (strCodes "//[x") [] = false :=
  ⟨by decide, c6_internal_exception_rejects lfNoPre (strCodes "//[x") [] (by decide)⟩

/-- Claim C7: a record whose source-URL field is missing or empty is skipped
— the state (summary and store writes) is unchanged and the loop moves on;
otherwise the field value is normalized by `pyNormalize` (strip whitespace,
prefix `https://` when no `http://`/`https://` scheme), the page is scraped
at the normalized URL, and the appended `ScrapeResult` records that
normalized URL. -/
theorem c7_skip_and_normalize (cfg : Config) (env : Env) (i : Nat) (r : AirRecord)
    (s : RunState) (rest : List AirRecord) :
    ((r.sourceField = none ∨ r.sourceField = some []) →
      processRecord cfg env i r s = .ok s ∧
      runGo cfg env i (r :: rest) s = runGo cfg env (i + 1) rest s) ∧
    (∀ raw S, r.sourceField = some raw → raw ≠ [] →
      scrape_page_links cfg env (pyNormalize raw) = .ok S →
      processRecord cfg env i r s =
        .ok ⟨s.results ++ [⟨i, r.id, pyNormalize raw,
              S.filter (fun l => List.isPrefixOf linkedinCanon l),
              (S.filter (fun l => List.isPrefixOf linkedinCanon l)).length⟩],
            if cfg.updateAirtable then
              s.updates ++ [(r.id, S.filter (fun l => List.isPrefixOf linkedinCanon l))]
            else s.updates⟩) := by
  constructor
  · intro h
    have h2 := processRecord_skip cfg env i r s h
    exact ⟨h2, runGo_cons cfg env i r rest s s h2⟩
  · intro raw S h1 h2 h3
    exact processRecord_scraped cfg env i r s raw S h1 h2 h3

theorem c7_witness :
    (processRecord cfgDemo envFetchFail 2 ⟨strCodes "rec2", some []⟩ ⟨[], []⟩ = .ok ⟨[], []⟩ ∧
     runGo cfgDemo envFetchFail 2 [⟨strCodes "rec2", some []⟩] ⟨[], []⟩ =
       runGo cfgDemo envFetchFail 3 [] ⟨[], []⟩) ∧
    processRecord cfgDemo envFetchFail 1 recDemo ⟨[], []⟩ =
      .ok ⟨[] ++ [⟨1, recDemo.id, pyNormalize (strCodes "example.com/a"),
            List.filter (fun l => List.isPrefixOf linkedinCanon l) [],
            (List.filter (fun l => List.isPrefixOf linkedinCanon l) []).length⟩],
          if cfgDemo.updateAirtable then
            [] ++ [(recDemo.id, List.filter (fun l => List.isPrefixOf linkedinCanon l) [])]
          else []⟩ :=
  ⟨(c7_skip_and_normalize cfgDemo envFetchFail 2 ⟨strCodes "rec2", some []⟩ ⟨[], []⟩ []).1
      (Or.inr rfl),
   (c7_skip_and_normalize cfgDemo envFetchFail 1 recDemo ⟨[], []⟩ []).2
      (strCodes "example.com/a") [] rfl (by decide) rfl⟩

/-- Claim C8: every link in a `ScrapeResult`'s accepted list starts with the
canonical prefix `https://www.linkedin.com` and is a member of the set the
Page Scraper returned for that record's stored source URL — the
site-specific post-filter only narrows the scraper's result; every
record-store write carries the accepted list of one of the results. -/
theorem c8_canonical_narrowing (cfg : Config) (env : Env)
    (records : List AirRecord) (st : RunState) (h : run cfg env records = .ok st) :
    (∀ res ∈ st.results,
      (∀ l ∈ res.linkedin_links, List.isPrefixOf linkedinCanon l = true) ∧
      ∃ S, scrape_page_links cfg env res.source_url = .ok S ∧
        ∀ l ∈ res.linkedin_links, l ∈ S) ∧
    (∀ pr ∈ st.updates, ∃ res ∈ st.results,
      (pr : PyStr × List PyStr).2 = res.linkedin_links) :=
  run_stateOk cfg env records st h

theorem c8_witness :
    (∀ res ∈ (⟨[⟨1, recDemo.id, pyNormalize (strCodes "example.com/a"), [], 0⟩],
        [(recDemo.id, [])]⟩ : RunState).results,
      (∀ l ∈ res.linkedin_links, List.isPrefixOf linkedinCanon l = true) ∧
      ∃ S, scrape_page_links cfgDemo envFetchFail res.source_url = .ok S ∧
        ∀ l ∈ res.linkedin_links, l ∈ S) ∧
    (∀ pr ∈ (⟨[⟨1, recDemo.id, pyNormalize (strCodes "example.com/a"), [], 0⟩],
        [(recDemo.id, [])]⟩ : RunState).updates,
      ∃ res ∈ (⟨[⟨1, recDemo.id, pyNormalize (strCodes "example.com/a"), [], 0⟩],
        [(recDemo.id, [])]⟩ : RunState).results,
      (pr : PyStr × List PyStr).2 = res.linkedin_links) :=
  c8_canonical_narrowing cfgDemo envFetchFail [recDemo] _ rfl

/-- Claim C9: extraction never takes a candidate href from inside a subtree
matched by an exclusion selector: selecting over the tree with all excluded
subtrees removed (exclusion applied before inclusion, as the code does)
yields exactly the candidate hrefs of the reference extraction that skips
every subtree whose root matches an exclusion selector — even when elements
inside such a subtree also match the inclusion selector. -/
theorem c9_exclusion_before_inclusion (ex : List Sel) (sel : Sel) (f : HForest) :
    candHrefs (selForest sel (pruneAllF ex f)) = candHrefs (safeSelForest ex sel f) :=
  sel_pruneAll_eq_safeSel ex sel f

/-- Claim C10: `is_valid_link` never reads its `source_url` parameter, so the
acceptance decision depends only on the candidate link and the policy. -/
theorem c10_source_url_irrelevant (lf : LinkFilters) (link s1 s2 : PyStr) :
    is_valid_link lf link s1 = is_valid_link lf link s2 := rfl

/-- Sanity check of the embedding against the spec's normalization example:
`'example.com/a'` becomes `'https://example.com/a'`. -/
theorem pyNormalize_example :
    pyNormalize (strCodes "example.com/a") = strCodes "https://example.com/a" := by decide

/-- Sanity check of the `urljoin` model against the spec's relative-URL
resolution example. -/
theorem pyUrljoin_relative_example :
    pyUrljoin (strCodes "https://a.com/x/y") (strCodes "../z?q=1") =
      some (strCodes "https://a.com/z?q=1") := by decide
